import Mathlib

/-!
Verification of the realtime speech-to-speech translation client
(`backend/realtime_simple.py`, `backend/logger.py`) against its
natural-language specification.

The Python source is shallowly embedded: audio byte strings become
`List Nat` (each entry one byte), float32 samples become `ℚ` (every value
produced by the code is an int16 divided by 32768, which float32 represents
exactly), Python strings become `List Char`, and each stateful loop becomes
an explicit step function over a state structure.  Wall-clock values are
modelled as `ℚ` seconds, and blocking I/O outcomes (queue yields, dial
successes) are passed in as oracle arguments.
-/

set_option autoImplicit false

namespace S2S

/-! ## Playback engine (`SimplePCMPlayer`, realtime_simple.py lines 40-141)

The FIFO `buffer` is a `collections.deque` of float32 frames; we model it as
a list whose head is the oldest frame.  `enqueue_float32` additionally
applies a cosine fade to the last ≤ 96 samples of the frame in place; that
shaping changes sample values but not the frame's length or the buffer
structure, so it is omitted here (none of the buffer claims depend on the
faded sample values; the vector a caller hands to `enqueue_float32` is
recorded before any fade). -/

/-- Source constant `self.max_buffer_size = 50` (line 52). -/
def max_buffer_size : Nat := 50

/-- Embedding of `SimplePCMPlayer.enqueue_float32` (lines 135-141): if the
deque already holds `max_buffer_size` frames, `popleft()` discards the
oldest frame (with a logged warning), then the new frame is appended. -/
def enqueue_float32 (buffer : List (List ℚ)) (pcm : List ℚ) : List (List ℚ) :=
  (if max_buffer_size ≤ buffer.length then buffer.tail else buffer) ++ [pcm]

theorem enqueue_float32_length_le (buffer : List (List ℚ)) (pcm : List ℚ)
    (h : buffer.length ≤ 50) : (enqueue_float32 buffer pcm).length ≤ 50 := by
  unfold enqueue_float32 max_buffer_size
  split <;> simp [List.length_tail] <;> omega

theorem foldl_enqueue_length_le (pcms : List (List ℚ)) :
    ∀ buffer : List (List ℚ), buffer.length ≤ 50 →
      (pcms.foldl enqueue_float32 buffer).length ≤ 50 := by
  induction pcms with
  | nil => intro buffer h; simpa using h
  | cons p ps ih =>
      intro buffer h
      simpa using ih (enqueue_float32 buffer p) (enqueue_float32_length_le buffer p h)

/-- C7: every enqueue keeps the playback FIFO at ≤ 50 frames; starting from
an empty FIFO, any sequence of enqueues stays within the cap, and an
enqueue that finds the FIFO at capacity removes exactly the oldest frame
before appending the new one. -/
theorem playback_fifo_cap (pcms : List (List ℚ)) :
    (pcms.foldl enqueue_float32 []).length ≤ 50 ∧
    (∀ (buf : List (List ℚ)) (p : List ℚ), buf.length = 50 →
      enqueue_float32 buf p = buf.tail ++ [p]) := by
  refine ⟨foldl_enqueue_length_le pcms [] (by simp), ?_⟩
  intro buf p hlen
  unfold enqueue_float32 max_buffer_size
  rw [if_pos (by omega)]

/-- Witness for `playback_fifo_cap` at a concrete overflow: a FIFO holding
50 frames drops its head on the next enqueue. -/
theorem playback_fifo_cap_witness :
    (([[(1 : ℚ)]]).foldl enqueue_float32 []).length ≤ 50 ∧
    enqueue_float32 (List.replicate 50 ([] : List ℚ)) [(1 : ℚ)] =
      (List.replicate 50 ([] : List ℚ)).tail ++ [[(1 : ℚ)]] :=
  ⟨(playback_fifo_cap [[(1 : ℚ)]]).1,
   (playback_fifo_cap [[(1 : ℚ)]]).2 (List.replicate 50 []) [(1 : ℚ)] (by simp)⟩

/-! ## Paced sender (`_sender_task`, realtime_simple.py lines 470-512)

One loop iteration: `asyncio.wait_for(self.send_queue.get(), timeout=0.01)`
either yields a queued chunk within 10 ms (oracle `queueYield = some c`) or
times out (`queueYield = none`), in which case an 80 ms zero chunk
`np.zeros(int(16000 * 0.08), dtype=np.int16).tobytes()` is synthesized.
After `ws_conn.send`, `next_send_time += 0.08`; with `now = time.time()`
taken after the send, the task sleeps `wait_time = next_send_time - now`
when positive, and resets `next_send_time = now` when `wait_time < -0.5`. -/

/-- Source value `int(self.sample_rate * 0.08)` = `int(16000 * 0.08)` = 1280
samples per 80 ms chunk. -/
def chunk_size : Nat := 1280

/-- Zero-filled chunk bytes: 1280 int16 zero samples serialize to 2560 zero
bytes (line 482). -/
def zeroChunk : List Nat := List.replicate (2 * chunk_size) 0

/-- Result of one sender iteration: the bytes sent, the updated
`next_send_time`, and the duration slept. -/
structure SenderIterResult where
  sent : List Nat
  nextSendTime : ℚ
  sleep : ℚ
  deriving DecidableEq

/-- Embedding of one iteration of `_sender_task`'s while loop (lines
476-508).  `st` is `next_send_time` entering the iteration, `queueYield`
the outcome of the 10 ms queue wait, `now` the value of `time.time()`
immediately after the send. -/
def senderIteration (st : ℚ) (queueYield : Option (List Nat)) (now : ℚ) :
    SenderIterResult :=
  let item := queueYield.getD zeroChunk
  let nst := st + 8 / 100
  let wait := nst - now
  if 0 < wait then ⟨item, nst, wait⟩
  else if wait < -(1 / 2) then ⟨item, now, 0⟩
  else ⟨item, nst, 0⟩

theorem senderIteration_eq (st : ℚ) (q : Option (List Nat)) (now : ℚ) :
    senderIteration st q now =
      if 0 < st + 8 / 100 - now then
        ⟨q.getD zeroChunk, st + 8 / 100, st + 8 / 100 - now⟩
      else if st + 8 / 100 - now < -(1 / 2) then ⟨q.getD zeroChunk, now, 0⟩
      else ⟨q.getD zeroChunk, st + 8 / 100, 0⟩ := rfl

/-- C3: in each sender iteration a queued chunk is sent verbatim, a queue
timeout sends the 2560-byte zero chunk, the post-send sleep equals
`max 0 (next_send_time - now)` computed with the 80 ms increment applied,
and `next_send_time` is reset to `now` exactly when `now` has fallen more
than 500 ms behind the incremented `next_send_time`. -/
theorem sender_pacing (st now : ℚ) (c : List Nat) :
    (senderIteration st (some c) now).sent = c ∧
    (senderIteration st none now).sent = List.replicate 2560 0 ∧
    (∀ q : Option (List Nat),
        (senderIteration st q now).sleep = max 0 (st + 8 / 100 - now) ∧
        (senderIteration st q now).nextSendTime =
          if 1 / 2 < now - (st + 8 / 100) then now else st + 8 / 100) := by
  have hsent : ∀ q : Option (List Nat),
      (senderIteration st q now).sent = q.getD zeroChunk := by
    intro q; rw [senderIteration_eq]; split_ifs <;> rfl
  have hzero : zeroChunk = List.replicate 2560 0 := by
    unfold zeroChunk chunk_size; norm_num
  refine ⟨by rw [hsent]; rfl, by rw [hsent]; exact hzero, ?_⟩
  intro q
  rw [senderIteration_eq]
  by_cases h1 : 0 < st + 8 / 100 - now
  · rw [if_pos h1]
    refine ⟨?_, ?_⟩
    · show st + 8 / 100 - now = max 0 (st + 8 / 100 - now)
      rw [max_eq_right (le_of_lt h1)]
    · show st + 8 / 100 = if 1 / 2 < now - (st + 8 / 100) then now else st + 8 / 100
      rw [if_neg (by intro hc; linarith)]
  · rw [if_neg h1]
    by_cases h2 : st + 8 / 100 - now < -(1 / 2)
    · rw [if_pos h2]
      refine ⟨?_, ?_⟩
      · show (0 : ℚ) = max 0 (st + 8 / 100 - now)
        rw [max_eq_left (by linarith)]
      · show now = if 1 / 2 < now - (st + 8 / 100) then now else st + 8 / 100
        rw [if_pos (by linarith)]
    · rw [if_neg h2]
      refine ⟨?_, ?_⟩
      · show (0 : ℚ) = max 0 (st + 8 / 100 - now)
        rw [max_eq_left (by linarith)]
      · show st + 8 / 100 = if 1 / 2 < now - (st + 8 / 100) then now else st + 8 / 100
        rw [if_neg (by intro hc; linarith)]

/-! ## Python string primitives used by the receiver and the log filter

Python strings are modelled as `List Char`.  `str.strip()` removes leading
and trailing whitespace; for the ASCII whitespace characters this is the
set below (Python additionally strips some Unicode whitespace, which none
of the claims exercise). -/

/-- Whitespace characters removed by Python `str.strip()` (ASCII range). -/
def isPySpace (c : Char) : Bool :=
  c = ' ' || c = '\t' || c = '\n' || c = '\r' || c = '\x0b' || c = '\x0c'

/-- Embedding of Python `str.strip()`. -/
def pyStrip (cs : List Char) : List Char :=
  ((cs.dropWhile isPySpace).reverse.dropWhile isPySpace).reverse

/-- Embedding of Python `sep.join(fragments)`. -/
def pyJoin (sep : List Char) : List (List Char) → List Char
  | [] => []
  | [s] => s
  | s :: rest => s ++ sep ++ pyJoin sep rest

theorem pyStrip_nil : pyStrip [] = [] := rfl

theorem pyJoin_three (sep x y z : List Char) :
    pyJoin sep [x, y, z] = x ++ sep ++ y ++ sep ++ z := by
  simp [pyJoin, List.append_assoc]

/-! ## TTS PCM conversion (`pcm_to_float32`, realtime_simple.py lines 143-153)

`np.frombuffer(pcm_bytes, dtype=np.int16)` reinterprets the byte string as
16-bit little-endian signed integers; a byte count that is not a multiple
of two raises `ValueError`, which the function catches, returning an empty
array.  The int16 array is then scaled by `/ 32768.0`; each resulting
float32 value is exactly the rational `n / 32768`. -/

/-- Value of the 16-bit little-endian signed integer with low byte `b0`
and high byte `b1`. -/
def le16ToInt (b0 b1 : Nat) : Int :=
  let u := b0 + 256 * b1
  if u < 32768 then (u : Int) else (u : Int) - 65536

/-- Reinterpret a byte list as int16 little-endian values (pairs of bytes;
a trailing odd byte yields no element — the caller excludes that case). -/
def bytesToInt16 : List Nat → List Int
  | b0 :: b1 :: rest => le16ToInt b0 b1 :: bytesToInt16 rest
  | _ => []

/-- Embedding of `pcm_to_float32`: odd byte counts raise inside
`np.frombuffer` and the handler returns an empty array; otherwise each
int16 sample is scaled to `n / 32768`. -/
def pcm_to_float32 (bs : List Nat) : List ℚ :=
  if bs.length % 2 = 1 then []
  else (bytesToInt16 bs).map (fun (n : Int) => (n : ℚ) / 32768)

theorem bytesToInt16_length : ∀ bs : List Nat,
    (bytesToInt16 bs).length = bs.length / 2
  | [] => rfl
  | [_] => by show ([] : List Int).length = 1 / 2; simp
  | b0 :: b1 :: rest => by
      show (bytesToInt16 rest).length + 1 = (rest.length + 1 + 1) / 2
      rw [bytesToInt16_length rest]
      omega

theorem bytesToInt16_getD : ∀ (bs : List Nat) (i : Nat), 2 * i + 1 < bs.length →
    (bytesToInt16 bs).getD i 0 = le16ToInt (bs.getD (2 * i) 0) (bs.getD (2 * i + 1) 0)
  | [], i, h => by simp at h
  | [_], i, h => by simp at h
  | b0 :: b1 :: rest, 0, _ => rfl
  | b0 :: b1 :: rest, i + 1, h => by
      have h' : 2 * i + 1 < rest.length := by
        simp only [List.length_cons] at h; omega
      have e0 : 2 * (i + 1) = 2 * i + 1 + 1 := by omega
      rw [e0]
      show (bytesToInt16 rest).getD i 0
          = le16ToInt (rest.getD (2 * i) 0) (rest.getD (2 * i + 1) 0)
      exact bytesToInt16_getD rest i h'

/-! ## Receiver / reassembler (`_receiver_task`, realtime_simple.py lines 514-667)

The receiver loop dispatches on the decoded event.  Its per-session mutable
state is `current_seq`, `current_data`, the two subtitle fragment buffers,
and `sentence_count`; we additionally record, as output traces, the vectors
handed to `player.enqueue_float32` and the strings handed to the
`on_source_sentence` / `on_translation_sentence` callbacks. -/

/-- Server-to-client events the receiver dispatches on. -/
inductive RecvEvent where
  | audioMuted (ms : Nat)
  | sessionFailed (msg : List Char)
  | sessionCanceled (msg : List Char)
  | sessionFinished
  | ttsSentenceStart (seq : Nat)
  | ttsResponse (data : List Nat)
  | ttsSentenceEnd
  | sourceSubtitleStart
  | sourceSubtitleResponse (text : List Char)
  | sourceSubtitleEnd
  | translationSubtitleStart
  | translationSubtitleResponse (text : List Char)
  | translationSubtitleEnd
  deriving DecidableEq

/-- Receiver state plus output traces (each trace lists calls oldest
first). -/
structure RecvState where
  currentSeq : Option Nat
  currentData : List Nat
  sourceTextBuffer : List (List Char)
  translationTextBuffer : List (List Char)
  sentenceCount : Nat
  enqueued : List (List ℚ)
  sourceEmitted : List (List Char)
  translationEmitted : List (List Char)
  deriving DecidableEq

/-- Receiver state at session start (`current_seq = None`, empty buffers,
`sentence_count = 0`). -/
def initRecvState : RecvState := ⟨none, [], [], [], 0, [], [], []⟩

/-- Effect of one received event on the receiver state (the body of the
dispatch chain, lines 527-633).  Terminal events perform no state change
relevant here before the loop breaks. -/
def recvStep (st : RecvState) (e : RecvEvent) : RecvState :=
  match e with
  | .audioMuted _ => st
  | .sessionFailed _ => st
  | .sessionCanceled _ => st
  | .sessionFinished => st
  | .ttsSentenceStart seq => { st with currentSeq := some seq, currentData := [] }
  | .ttsResponse data =>
      if st.currentSeq.isSome ∧ data ≠ [] then
        { st with currentData := st.currentData ++ data }
      else st
  | .ttsSentenceEnd =>
      if st.currentSeq.isSome ∧ st.currentData ≠ [] then
        let pcm := pcm_to_float32 st.currentData
        let st' :=
          if pcm ≠ [] then
            { st with enqueued := st.enqueued ++ [pcm],
                      sentenceCount := st.sentenceCount + 1 }
          else st
        { st' with currentSeq := none, currentData := [] }
      else st
  | .sourceSubtitleStart => { st with sourceTextBuffer := [] }
  | .sourceSubtitleResponse text =>
      if text ≠ [] ∧ pyStrip text ≠ [] then
        { st with sourceTextBuffer := st.sourceTextBuffer ++ [pyStrip text] }
      else st
  | .sourceSubtitleEnd =>
      if st.sourceTextBuffer ≠ [] then
        { st with sourceEmitted := st.sourceEmitted ++ [pyJoin [] st.sourceTextBuffer],
                  sourceTextBuffer := [] }
      else st
  | .translationSubtitleStart => { st with translationTextBuffer := [] }
  | .translationSubtitleResponse text =>
      if text ≠ [] ∧ pyStrip text ≠ [] then
        { st with translationTextBuffer := st.translationTextBuffer ++ [pyStrip text] }
      else st
  | .translationSubtitleEnd =>
      if st.translationTextBuffer ≠ [] then
        { st with translationEmitted :=
                    st.translationEmitted ++ [pyJoin [' '] st.translationTextBuffer],
                  translationTextBuffer := [] }
      else st

/-- Events on which the receiver loop breaks (lines 533-562). -/
def isTerminal : RecvEvent → Bool
  | .sessionFailed _ => true
  | .sessionCanceled _ => true
  | .sessionFinished => true
  | _ => false

/-- Run of the receiver loop over a finite event stream, stopping at the
first terminal event. -/
def runReceiver : RecvState → List RecvEvent → RecvState
  | st, [] => st
  | st, e :: es => if isTerminal e then st else runReceiver (recvStep st e) es


theorem runReceiver_cons (st : RecvState) (e : RecvEvent) (es : List RecvEvent)
    (h : isTerminal e = false) :
    runReceiver st (e :: es) = runReceiver (recvStep st e) es := by
  simp [runReceiver, h]

theorem recvStep_ttsStart (st : RecvState) (seq : Nat) :
    recvStep st (.ttsSentenceStart seq)
      = { st with currentSeq := some seq, currentData := [] } := rfl

theorem recvStep_srcStart (st : RecvState) :
    recvStep st .sourceSubtitleStart = { st with sourceTextBuffer := [] } := rfl

theorem recvStep_transStart (st : RecvState) :
    recvStep st .translationSubtitleStart
      = { st with translationTextBuffer := [] } := rfl

theorem recvStep_srcResp_pos (st : RecvState) (t : List Char)
    (h1 : t ≠ []) (h2 : pyStrip t ≠ []) :
    recvStep st (.sourceSubtitleResponse t)
      = { st with sourceTextBuffer := st.sourceTextBuffer ++ [pyStrip t] } :=
  if_pos ⟨h1, h2⟩

theorem recvStep_transResp_pos (st : RecvState) (t : List Char)
    (h1 : t ≠ []) (h2 : pyStrip t ≠ []) :
    recvStep st (.translationSubtitleResponse t)
      = { st with translationTextBuffer := st.translationTextBuffer ++ [pyStrip t] } :=
  if_pos ⟨h1, h2⟩

theorem recvStep_srcEnd_pos (st : RecvState) (h : st.sourceTextBuffer ≠ []) :
    recvStep st .sourceSubtitleEnd
      = { st with sourceEmitted := st.sourceEmitted ++ [pyJoin [] st.sourceTextBuffer],
                  sourceTextBuffer := [] } :=
  if_pos h

theorem recvStep_transEnd_pos (st : RecvState) (h : st.translationTextBuffer ≠ []) :
    recvStep st .translationSubtitleEnd
      = { st with translationEmitted :=
                    st.translationEmitted ++ [pyJoin [' '] st.translationTextBuffer],
                  translationTextBuffer := [] } :=
  if_pos h

theorem pyStrip_ne_nil_arg {t : List Char} (h : pyStrip t ≠ []) : t ≠ [] := by
  intro he; subst he; exact h pyStrip_nil

theorem runReceiver_ttsResponses (ps : List (List Nat)) :
    ∀ (st : RecvState) (rest : List RecvEvent), st.currentSeq.isSome →
      runReceiver st (ps.map RecvEvent.ttsResponse ++ rest)
        = runReceiver { st with currentData := st.currentData ++ ps.flatten } rest := by
  induction ps with
  | nil => intro st rest _; simp
  | cons p ps ih =>
      intro st rest hsome
      rw [List.map_cons, List.cons_append,
        runReceiver_cons st (.ttsResponse p) (ps.map RecvEvent.ttsResponse ++ rest) rfl]
      by_cases hp : p = []
      · subst hp
        have hstep : recvStep st (.ttsResponse []) = st := by simp [recvStep]
        rw [hstep, ih st rest hsome]
        simp
      · have hstep : recvStep st (.ttsResponse p)
            = { st with currentData := st.currentData ++ p } :=
          if_pos ⟨hsome, hp⟩
        rw [hstep, ih { st with currentData := st.currentData ++ p } rest hsome]
        simp [List.append_assoc]

theorem pcm_to_float32_even {bs : List Nat} (h : bs.length % 2 = 0) :
    pcm_to_float32 bs = (bytesToInt16 bs).map (fun (n : Int) => (n : ℚ) / 32768) := by
  unfold pcm_to_float32
  rw [if_neg (by omega)]

theorem getD_map_div (l : List Int) :
    ∀ i : Nat, i < l.length →
      (l.map (fun (n : Int) => (n : ℚ) / 32768)).getD i 0
        = ((l.getD i 0 : Int) : ℚ) / 32768 := by
  induction l with
  | nil => intro i h; simp at h
  | cons x xs ih =>
      intro i h
      cases i with
      | zero => rfl
      | succ j =>
          show (xs.map (fun (n : Int) => (n : ℚ) / 32768)).getD j 0
              = ((xs.getD j 0 : Int) : ℚ) / 32768
          exact ih j (by simp at h; omega)

/-- C1 counterexample: an episode whose `TTSResponse` payloads concatenate
to 0 bytes, and one whose payloads concatenate to 1 byte, both produce zero
playback enqueues, not the one enqueue with `B / 2` samples the claim
requires. -/
theorem tts_empty_or_odd_counterexample :
    (runReceiver initRecvState
        [RecvEvent.ttsSentenceStart 7, RecvEvent.ttsSentenceEnd]).enqueued = [] ∧
    (runReceiver initRecvState
        [RecvEvent.ttsSentenceStart 7, RecvEvent.ttsResponse [16],
         RecvEvent.ttsSentenceEnd]).enqueued = [] := by
  decide

/-- C1 (amended): when the concatenated payload has a positive, even byte
count `B`, the `TTSSentenceStart` / `TTSResponse*` / `TTSSentenceEnd`
episode performs exactly one playback enqueue, whose vector has `B / 2`
samples, the `i`-th being the `i`-th little-endian int16 of the payload
divided by 32768. -/
theorem tts_sentence_reassembly (st : RecvState) (seq : Nat)
    (payloads : List (List Nat))
    (heven : (payloads.flatten).length % 2 = 0) (hne : payloads.flatten ≠ []) :
    (runReceiver st
        (RecvEvent.ttsSentenceStart seq ::
          (payloads.map RecvEvent.ttsResponse ++ [RecvEvent.ttsSentenceEnd]))).enqueued
      = st.enqueued ++ [pcm_to_float32 payloads.flatten] ∧
    (pcm_to_float32 payloads.flatten).length = (payloads.flatten).length / 2 ∧
    (∀ i : Nat, i < (payloads.flatten).length / 2 →
      (pcm_to_float32 payloads.flatten).getD i 0
        = ((le16ToInt ((payloads.flatten).getD (2 * i) 0)
              ((payloads.flatten).getD (2 * i + 1) 0) : Int) : ℚ) / 32768) := by
  have hlen : (pcm_to_float32 payloads.flatten).length = (payloads.flatten).length / 2 := by
    rw [pcm_to_float32_even heven]
    rw [List.length_map, bytesToInt16_length]
  have hpcm : pcm_to_float32 payloads.flatten ≠ [] := by
    intro h0
    have h1 : (payloads.flatten).length / 2 = 0 := by rw [← hlen, h0]; rfl
    have h2 : (payloads.flatten).length = 0 := by omega
    exact hne (List.eq_nil_of_length_eq_zero h2)
  refine ⟨?_, hlen, ?_⟩
  · rw [runReceiver_cons st (.ttsSentenceStart seq)
        (payloads.map RecvEvent.ttsResponse ++ [RecvEvent.ttsSentenceEnd]) rfl,
      recvStep_ttsStart,
      runReceiver_ttsResponses payloads
        { st with currentSeq := some seq, currentData := [] }
        [RecvEvent.ttsSentenceEnd] rfl]
    simp only [List.nil_append]
    rw [runReceiver_cons _ .ttsSentenceEnd [] rfl]
    simp only [runReceiver]
    simp [recvStep, hne, hpcm]
  · intro i hi
    rw [pcm_to_float32_even heven,
      getD_map_div (bytesToInt16 payloads.flatten) i
        (by rw [bytesToInt16_length]; exact hi),
      bytesToInt16_getD payloads.flatten i (by omega)]

/-- Witness for `tts_sentence_reassembly`: the two-payload episode of spec
scenario S3 yields exactly one enqueue of `pcm_to_float32 [0, 16, 0, 32]`. -/
theorem tts_sentence_reassembly_witness :
    (runReceiver initRecvState
        (RecvEvent.ttsSentenceStart 7 ::
          (([[0, 16], [0, 32]] : List (List Nat)).map RecvEvent.ttsResponse
            ++ [RecvEvent.ttsSentenceEnd]))).enqueued
      = initRecvState.enqueued
          ++ [pcm_to_float32 ([[0, 16], [0, 32]] : List (List Nat)).flatten] :=
  (tts_sentence_reassembly initRecvState 7 [[0, 16], [0, 32]]
      (by decide) (by decide)).1

/-- C2 counterexample: source fragments `["a ", "b", "c"]` emit `"abc"`
(each fragment is stripped before buffering), not the claimed
`"a " + "b" + "c" = "a bc"`; translation fragments `["Hi ", "yo"]` emit
`"Hi yo"`, not `"Hi " + " " + "yo" = "Hi  yo"`. -/
theorem subtitle_join_counterexample :
    (runReceiver initRecvState
        [RecvEvent.sourceSubtitleStart,
         RecvEvent.sourceSubtitleResponse ['a', ' '],
         RecvEvent.sourceSubtitleResponse ['b'],
         RecvEvent.sourceSubtitleResponse ['c'],
         RecvEvent.sourceSubtitleEnd]).sourceEmitted = [['a', 'b', 'c']] ∧
    ['a', 'b', 'c'] ≠ ['a', ' '] ++ ['b'] ++ ['c'] ∧
    (runReceiver initRecvState
        [RecvEvent.translationSubtitleStart,
         RecvEvent.translationSubtitleResponse ['H', 'i', ' '],
         RecvEvent.translationSubtitleResponse ['y', 'o'],
         RecvEvent.translationSubtitleEnd]).translationEmitted
      = [['H', 'i', ' ', 'y', 'o']] ∧
    ['H', 'i', ' ', 'y', 'o'] ≠ ['H', 'i', ' '] ++ [' '] ++ ['y', 'o'] := by
  decide

/-- C2 (amended): for fragments `a, b, c` that are nonempty after Python
stripping, the source episode emits `strip(a) ++ strip(b) ++ strip(c)` (no
separator) and the translation episode emits
`strip(a) ++ " " ++ strip(b) ++ " " ++ strip(c)` (single-space separator). -/
theorem subtitle_join_stripped (st : RecvState) (a b c : List Char)
    (ha : pyStrip a ≠ []) (hb : pyStrip b ≠ []) (hc : pyStrip c ≠ []) :
    (runReceiver st
        [RecvEvent.sourceSubtitleStart,
         RecvEvent.sourceSubtitleResponse a,
         RecvEvent.sourceSubtitleResponse b,
         RecvEvent.sourceSubtitleResponse c,
         RecvEvent.sourceSubtitleEnd]).sourceEmitted
      = st.sourceEmitted ++ [pyStrip a ++ pyStrip b ++ pyStrip c] ∧
    (runReceiver st
        [RecvEvent.translationSubtitleStart,
         RecvEvent.translationSubtitleResponse a,
         RecvEvent.translationSubtitleResponse b,
         RecvEvent.translationSubtitleResponse c,
         RecvEvent.translationSubtitleEnd]).translationEmitted
      = st.translationEmitted
          ++ [pyStrip a ++ [' '] ++ pyStrip b ++ [' '] ++ pyStrip c] := by
  have ha' := pyStrip_ne_nil_arg ha
  have hb' := pyStrip_ne_nil_arg hb
  have hc' := pyStrip_ne_nil_arg hc
  constructor
  · rw [runReceiver_cons st .sourceSubtitleStart _ rfl, recvStep_srcStart,
      runReceiver_cons _ (.sourceSubtitleResponse a) _ rfl,
      recvStep_srcResp_pos _ a ha' ha,
      runReceiver_cons _ (.sourceSubtitleResponse b) _ rfl,
      recvStep_srcResp_pos _ b hb' hb,
      runReceiver_cons _ (.sourceSubtitleResponse c) _ rfl,
      recvStep_srcResp_pos _ c hc' hc,
      runReceiver_cons _ .sourceSubtitleEnd [] rfl,
      recvStep_srcEnd_pos _ (by simp)]
    simp [runReceiver, pyJoin]
  · rw [runReceiver_cons st .translationSubtitleStart _ rfl, recvStep_transStart,
      runReceiver_cons _ (.translationSubtitleResponse a) _ rfl,
      recvStep_transResp_pos _ a ha' ha,
      runReceiver_cons _ (.translationSubtitleResponse b) _ rfl,
      recvStep_transResp_pos _ b hb' hb,
      runReceiver_cons _ (.translationSubtitleResponse c) _ rfl,
      recvStep_transResp_pos _ c hc' hc,
      runReceiver_cons _ .translationSubtitleEnd [] rfl,
      recvStep_transEnd_pos _ (by simp)]
    simp [runReceiver, pyJoin, List.append_assoc]

/-- Witness for `subtitle_join_stripped` on the concrete fragments
`"Hi"`, `"to"`, `"u"`. -/
theorem subtitle_join_stripped_witness :
    (runReceiver initRecvState
        [RecvEvent.sourceSubtitleStart,
         RecvEvent.sourceSubtitleResponse ['H', 'i'],
         RecvEvent.sourceSubtitleResponse ['t', 'o'],
         RecvEvent.sourceSubtitleResponse ['u'],
         RecvEvent.sourceSubtitleEnd]).sourceEmitted
      = initRecvState.sourceEmitted
          ++ [pyStrip ['H', 'i'] ++ pyStrip ['t', 'o'] ++ pyStrip ['u']] :=
  (subtitle_join_stripped initRecvState ['H', 'i'] ['t', 'o'] ['u']
      (by decide) (by decide) (by decide)).1

theorem runReceiver_ws_srcResponses (fs : List (List Char)) :
    ∀ (st : RecvState) (rest : List RecvEvent), (∀ f ∈ fs, pyStrip f = []) →
      runReceiver st (fs.map RecvEvent.sourceSubtitleResponse ++ rest)
        = runReceiver st rest := by
  induction fs with
  | nil => intro st rest _; simp
  | cons f fs ih =>
      intro st rest h
      rw [List.map_cons, List.cons_append,
        runReceiver_cons st (.sourceSubtitleResponse f) _ rfl]
      have hstep : recvStep st (.sourceSubtitleResponse f) = st := by
        have hf : pyStrip f = [] := h f (by simp)
        simp [recvStep, hf]
      rw [hstep, ih st rest (fun g hg => h g (by simp [hg]))]

theorem runReceiver_ws_transResponses (fs : List (List Char)) :
    ∀ (st : RecvState) (rest : List RecvEvent), (∀ f ∈ fs, pyStrip f = []) →
      runReceiver st (fs.map RecvEvent.translationSubtitleResponse ++ rest)
        = runReceiver st rest := by
  induction fs with
  | nil => intro st rest _; simp
  | cons f fs ih =>
      intro st rest h
      rw [List.map_cons, List.cons_append,
        runReceiver_cons st (.translationSubtitleResponse f) _ rfl]
      have hstep : recvStep st (.translationSubtitleResponse f) = st := by
        have hf : pyStrip f = [] := h f (by simp)
        simp [recvStep, hf]
      rw [hstep, ih st rest (fun g hg => h g (by simp [hg]))]

/-- C10: a subtitle episode all of whose fragments are empty or
whitespace-only (including the fragment-free episode) invokes no sentence
callback, for both the source and the translation side. -/
theorem whitespace_only_no_callback (st : RecvState) (fs : List (List Char))
    (h : ∀ f ∈ fs, pyStrip f = []) :
    (runReceiver st
        (RecvEvent.sourceSubtitleStart ::
          (fs.map RecvEvent.sourceSubtitleResponse
            ++ [RecvEvent.sourceSubtitleEnd]))).sourceEmitted
      = st.sourceEmitted ∧
    (runReceiver st
        (RecvEvent.translationSubtitleStart ::
          (fs.map RecvEvent.translationSubtitleResponse
            ++ [RecvEvent.translationSubtitleEnd]))).translationEmitted
      = st.translationEmitted := by
  constructor
  · rw [runReceiver_cons st .sourceSubtitleStart _ rfl, recvStep_srcStart,
      runReceiver_ws_srcResponses fs { st with sourceTextBuffer := [] }
        [RecvEvent.sourceSubtitleEnd] h,
      runReceiver_cons _ .sourceSubtitleEnd [] rfl]
    have hstep : recvStep { st with sourceTextBuffer := [] } .sourceSubtitleEnd
        = { st with sourceTextBuffer := [] } := by
      simp [recvStep]
    rw [hstep]
    rfl
  · rw [runReceiver_cons st .translationSubtitleStart _ rfl, recvStep_transStart,
      runReceiver_ws_transResponses fs { st with translationTextBuffer := [] }
        [RecvEvent.translationSubtitleEnd] h,
      runReceiver_cons _ .translationSubtitleEnd [] rfl]
    have hstep : recvStep { st with translationTextBuffer := [] }
        .translationSubtitleEnd
        = { st with translationTextBuffer := [] } := by
      simp [recvStep]
    rw [hstep]
    rfl

/-- Witness for `whitespace_only_no_callback`: an episode with one
space-only fragment and one empty fragment emits nothing. -/
theorem whitespace_only_no_callback_witness :
    (runReceiver initRecvState
        (RecvEvent.sourceSubtitleStart ::
          (([[' '], []] : List (List Char)).map RecvEvent.sourceSubtitleResponse
            ++ [RecvEvent.sourceSubtitleEnd]))).sourceEmitted
      = initRecvState.sourceEmitted :=
  (whitespace_only_no_callback initRecvState [[' '], []] (by decide)).1

/-! ## Audio capture and pre-buffer (`audio_callback`, realtime_simple.py
lines 257-302)

`self._mic_prebuffer = deque(maxlen=30)` (line 211); while the session is
not ready (`session_active` false or `send_queue` missing) each captured
chunk's bytes are appended to the pre-buffer, the deque discarding its
oldest element when it is at `maxlen`.  Once the session is ready, the
callback first drains the entire pre-buffer into the send queue with
`popleft()` (oldest first) and then enqueues the current chunk; the puts
are submitted to the event loop with `run_coroutine_threadsafe`, which
preserves submission order, so the send-queue arrival order is the
pre-buffered chunks in capture order followed by the new chunk. -/

/-- Capacity of the microphone pre-buffer (`deque(maxlen=30)`). -/
def prebufferMaxlen : Nat := 30

/-- Append to a `deque(maxlen=30)`: at capacity the oldest (head) element
is discarded. -/
def prebufferAppend (pb : List (List Nat)) (c : List Nat) : List (List Nat) :=
  if prebufferMaxlen ≤ pb.length then pb.tail ++ [c] else pb ++ [c]

/-- Capture-side state: the pre-buffer ring and the trace of chunks put on
the send queue, oldest first. -/
structure CaptureState where
  prebuffer : List (List Nat)
  sent : List (List Nat)
  deriving DecidableEq

/-- Effect of one `audio_callback` invocation on the capture state.
`sessionReady` is `self.session_active and self.send_queue is not None`
at the time of the callback; `chunk` is the converted int16 bytes. -/
def audioCallbackStep (sessionReady : Bool) (st : CaptureState)
    (chunk : List Nat) : CaptureState :=
  if sessionReady then
    { prebuffer := [], sent := st.sent ++ st.prebuffer ++ [chunk] }
  else
    { st with prebuffer := prebufferAppend st.prebuffer chunk }

theorem prebufferAppend_length_le (pb : List (List Nat)) (c : List Nat)
    (h : pb.length ≤ 30) : (prebufferAppend pb c).length ≤ 30 := by
  unfold prebufferAppend prebufferMaxlen
  split <;> simp [List.length_tail] <;> omega

theorem foldl_prebufferAppend_eq (cs : List (List Nat)) :
    ∀ pb : List (List Nat), pb.length + cs.length ≤ 30 →
      cs.foldl prebufferAppend pb = pb ++ cs := by
  induction cs with
  | nil => intro pb _; simp
  | cons c cs ih =>
      intro pb h
      have hlt : ¬ prebufferMaxlen ≤ pb.length := by
        unfold prebufferMaxlen; simp at h ⊢; omega
      show cs.foldl prebufferAppend (prebufferAppend pb c) = pb ++ c :: cs
      rw [prebufferAppend, if_neg hlt,
        ih (pb ++ [c]) (by simp at h ⊢; omega)]
      simp

theorem foldl_inactive_capture (cs : List (List Nat)) :
    ∀ st : CaptureState,
      cs.foldl (audioCallbackStep false) st
        = { prebuffer := cs.foldl prebufferAppend st.prebuffer, sent := st.sent } := by
  induction cs with
  | nil => intro st; simp
  | cons c cs ih =>
      intro st
      show cs.foldl (audioCallbackStep false) (audioCallbackStep false st c) = _
      rw [ih (audioCallbackStep false st c)]
      rfl

theorem foldl_prebufferAppend_le (cs : List (List Nat)) :
    ∀ pb : List (List Nat), pb.length ≤ 30 →
      (cs.foldl prebufferAppend pb).length ≤ 30 := by
  induction cs with
  | nil => intro pb h; simpa using h
  | cons c cs ih =>
      intro pb h
      exact ih (prebufferAppend pb c) (prebufferAppend_length_le pb c h)

/-- C5: chunks captured while no session is ready accumulate in the
pre-buffer in capture order; the pre-buffer never exceeds 30 chunks and at
capacity discards its oldest element; and when `N ≤ 30` chunks were
captured before the session became ready, the first callback afterwards
puts exactly those `N` chunks on the send queue in capture order, before
the newly captured chunk. -/
theorem prebuffer_drain (cs : List (List Nat)) (c : List Nat)
    (hN : cs.length ≤ 30) :
    (cs.foldl (audioCallbackStep false) ⟨[], []⟩).sent = [] ∧
    (cs.foldl (audioCallbackStep false) ⟨[], []⟩).prebuffer = cs ∧
    (audioCallbackStep true (cs.foldl (audioCallbackStep false) ⟨[], []⟩) c).sent
      = cs ++ [c] ∧
    (∀ ds : List (List Nat),
      ((ds.foldl (audioCallbackStep false) ⟨[], []⟩).prebuffer).length ≤ 30) ∧
    (∀ (pb : List (List Nat)) (d : List Nat), pb.length = 30 →
      prebufferAppend pb d = pb.tail ++ [d]) := by
  have hfold := foldl_inactive_capture cs ⟨[], []⟩
  have hpb : (cs.foldl (audioCallbackStep false) ⟨[], []⟩).prebuffer = cs := by
    rw [hfold]
    exact foldl_prebufferAppend_eq cs [] (by simpa using hN)
  have hsent : (cs.foldl (audioCallbackStep false) ⟨[], []⟩).sent = [] := by
    rw [hfold]
  refine ⟨hsent, hpb, ?_, ?_, ?_⟩
  · simp [audioCallbackStep, hsent, hpb]
  · intro ds
    rw [foldl_inactive_capture ds ⟨[], []⟩]
    exact foldl_prebufferAppend_le ds [] (by simp)
  · intro pb d hlen
    unfold prebufferAppend prebufferMaxlen
    rw [if_pos (by omega)]

/-- Witness for `prebuffer_drain`: two pre-captured chunks are sent, in
order, before the first live chunk. -/
theorem prebuffer_drain_witness :
    (audioCallbackStep true
        (([[1], [2]] : List (List Nat)).foldl (audioCallbackStep false) ⟨[], []⟩)
        [3]).sent
      = ([[1], [2]] : List (List Nat)) ++ [[3]] :=
  (prebuffer_drain [[1], [2]] [3] (by decide)).2.2.1

/-! ## Send-queue overflow handling (realtime_simple.py lines 290-302 and
476-489)

The send queue is `asyncio.Queue(maxsize=300)` (line 429 with
`self.max_queue_size = 300`).  Standard `asyncio.Queue` semantics, which
the embedding reflects: the coroutine `queue.put(item)` never raises
`QueueFull`; when the queue is at capacity the putter suspends until space
frees and then inserts the item (waiters wake FIFO, preserving order).
`queue.get()` never raises `QueueFull` either — so the sender's
`except asyncio.QueueFull` handler (lines 483-486), the only place that
logs "Send queue full, skipping audio chunk", is unreachable.  The capture
callback submits each put with `run_coroutine_threadsafe`, which returns
immediately, so the audio thread itself never waits. -/

/-- Source constant `self.max_queue_size = 300` (line 195). -/
def max_queue_size : Nat := 300

/-- Outcome of running the scheduled `send_queue.put(b)` coroutine on the
event loop. -/
inductive PutOutcome where
  /-- Queue had room: the chunk is appended immediately. -/
  | enqueuedNow (q : List (List Nat))
  /-- Queue at capacity: the putter suspends holding the chunk and appends
  it when space frees; the chunk is never discarded and no exception is
  raised. -/
  | waitsForSpace (pending : List Nat)
  deriving DecidableEq

/-- Effect of `await send_queue.put(c)` on a queue `q` with capacity
`max_queue_size`. -/
def sendQueuePut (q : List (List Nat)) (c : List Nat) : PutOutcome :=
  if q.length < max_queue_size then .enqueuedNow (q ++ [c])
  else .waitsForSpace c

/-- Outcome of `asyncio.wait_for(send_queue.get(), timeout=0.01)` as the
sender observes it: an item, or a timeout; `QueueFull` is not a possible
outcome of `get`. -/
inductive GetOutcome where
  | item (c : List Nat)
  | timeout
  deriving DecidableEq

/-- Sender-side dequeue (lines 477-486): the chunk that will be sent and
whether the queue-full warning ("Send queue full, skipping audio chunk")
fired.  The warning lives in an `except asyncio.QueueFull` handler around
`get`, which never raises `QueueFull`, so it can never fire. -/
def senderDequeue : GetOutcome → List Nat × Bool
  | .item c => (c, false)
  | .timeout => (zeroChunk, false)

/-- C4 evaluation at the failing input: with the send queue full (300
chunks), the newly captured chunk is not skipped — the put suspends and the
chunk is still delivered — and no queue-full warning can be logged on any
dequeue path.  This contradicts the claimed skip-with-warning behaviour;
the non-blocking half of the claim (capture never waits) does hold, since
the callback only schedules the coroutine. -/
theorem send_queue_full_not_skipped :
    sendQueuePut (List.replicate 300 zeroChunk) [1]
      = PutOutcome.waitsForSpace [1] ∧
    (∀ g : GetOutcome, (senderDequeue g).2 = false) ∧
    (∀ q : List (List Nat), ∀ c : List Nat,
      sendQueuePut q c = PutOutcome.enqueuedNow (q ++ [c]) ∨
        sendQueuePut q c = PutOutcome.waitsForSpace c) := by
  refine ⟨?_, ?_, ?_⟩
  · unfold sendQueuePut max_queue_size
    rw [if_neg (by rw [List.length_replicate]; omega)]
  · intro g; cases g <;> rfl
  · intro q c
    unfold sendQueuePut
    split
    · exact Or.inl rfl
    · exact Or.inr rfl

/-! ## Supervisor / watchdog (`_watchdog_task`, realtime_simple.py lines
757-801, and `_start_session`, lines 323-446)

`_start_session` wraps its entire body — config load, the dial loop, the
`StartSession` handshake — in `try: ... except Exception as e:` (line 438)
which logs, resets `session_active`, closes the socket, and **returns
normally**.  Consequently `await self._start_session()` in the watchdog
never raises for an ordinary open failure, so the watchdog's `except`
branch that increments `consecutive_failures` and doubles `backoff` is
unreachable: every tick takes the success path `backoff = 1;
consecutive_failures = 0`. -/

/-- What one attempt to establish a session does inside
`_start_session`'s try block. -/
inductive SessionOpenAttempt where
  /-- Dial and `SessionStarted` handshake succeeded. -/
  | ok
  /-- Dial failed after the retry loop (`raise e`), or any other exception
  inside the try block. -/
  | failure (msg : List Char)
  deriving DecidableEq

/-- Result of `await self._start_session()` as its caller observes it. -/
structure StartSessionResult where
  sessionActive : Bool
  raised : Bool
  deriving DecidableEq

/-- Embedding of `_start_session`'s outcome: the catch-all
`except Exception` (lines 438-446) converts every failure into a normal
return with `session_active = False`. -/
def startSessionRun : SessionOpenAttempt → StartSessionResult
  | .ok => ⟨true, false⟩
  | .failure _ => ⟨false, false⟩

/-- One reconnect tick of `_watchdog_task` when no session is active
(lines 766-789): state is `(backoff, consecutive_failures)`. -/
def watchdogTick (backoff consecutiveFailures : Nat)
    (a : SessionOpenAttempt) : Nat × Nat :=
  if 5 ≤ consecutiveFailures then (1, 0)
  else if (startSessionRun a).raised then
    (min (backoff * 2) 16, consecutiveFailures + 1)
  else (1, 0)

/-- C6 evaluation at the failing input: a watchdog tick whose session-open
attempt fails leaves `(backoff, consecutive_failures) = (1, 0)` — the
failure is swallowed inside `_start_session`, so the counter is not
incremented and the backoff is not doubled as the claim (and the
watchdog's own dead `except` branch) prescribe. -/
theorem watchdog_failure_not_counted :
    watchdogTick 1 0 (.failure ['r', 'e', 'f', 'u', 's', 'e', 'd']) = (1, 0) ∧
    (min (1 * 2) 16, 0 + 1) = (2, 1) ∧
    (∀ (b cf : Nat) (msg : List Char),
      (startSessionRun (.failure msg)).raised = false ∧
      watchdogTick b (min cf 4) (.failure msg) = (1, 0)) := by
  refine ⟨rfl, by decide, ?_⟩
  intro b cf msg
  refine ⟨rfl, ?_⟩
  unfold watchdogTick
  rw [if_neg (by omega)]
  rfl

/-! ## WebSocket dial retry (`_start_session`, realtime_simple.py lines
353-375)

`websockets.connect(..., open_timeout=20)` wrapped in
`asyncio.wait_for(..., timeout=20)`; the retry loop runs while
`connect_attempts < 3`: on failure `connect_attempts += 1`; once it
reaches 3 the exception is re-raised; otherwise the loop sleeps
`min(2 ** connect_attempts, 8)` seconds and dials again. -/

/-- Source value `open_timeout=20` (line 364). -/
def ws_open_timeout : Nat := 20

/-- Source value `max_connect_attempts = 3` (line 355). -/
def max_connect_attempts : Nat := 3

/-- Embedding of the dial loop.  `succeeds i` says whether the `(i+1)`-th
dial succeeds.  Arguments: remaining fuel (the loop runs at most 3 times),
`connect_attempts`, dials made so far, delays slept so far.  Returns
`(dials made, delays slept, exception propagated)`. -/
def connectWhile (succeeds : Nat → Bool) :
    Nat → Nat → Nat → List Nat → Nat × List Nat × Bool
  | 0, _, dials, delays => (dials, delays, false)
  | fuel + 1, ca, dials, delays =>
      if ca < max_connect_attempts then
        if succeeds ca then (dials + 1, delays, false)
        else if max_connect_attempts ≤ ca + 1 then (dials + 1, delays, true)
        else connectWhile succeeds fuel (ca + 1) (dials + 1)
              (delays ++ [min (2 ^ (ca + 1)) 8])
      else (dials, delays, false)

/-- Full dial phase of `_start_session`. -/
def connectDial (succeeds : Nat → Bool) : Nat × List Nat × Bool :=
  connectWhile succeeds 3 0 0 []

/-- C8 counterexample: when every dial fails, the code makes 3 dial
attempts in total (2 retries, not 3) and sleeps delays `[2, 4]` — the
claimed third retry and 8-second delay never occur. -/
theorem connect_retry_counterexample :
    connectDial (fun _ => false) = (3, [2, 4], true) ∧
    ([2, 4] : List Nat) ≠ [2, 4, 8] := by
  constructor
  · rfl
  · decide

/-- C8 (amended): every dial uses the 20-second open timeout; on failure
the dial is retried at most twice more (3 attempts in total) with
inter-attempt delays of 2 and then 4 seconds; the error propagates exactly
when all three attempts fail. -/
theorem connect_retry_amended (succeeds : Nat → Bool) :
    ws_open_timeout = 20 ∧
    (connectDial succeeds).1 ≤ 3 ∧
    ((connectDial succeeds).2.1 = [] ∨ (connectDial succeeds).2.1 = [2] ∨
      (connectDial succeeds).2.1 = [2, 4]) ∧
    ((connectDial succeeds).2.2 = true ↔
      (succeeds 0 = false ∧ succeeds 1 = false ∧ succeeds 2 = false)) := by
  by_cases h0 : succeeds 0 = true
  · have : connectDial succeeds = (1, [], false) := by
      unfold connectDial connectWhile
      simp [max_connect_attempts, h0]
    rw [this]
    refine ⟨rfl, by norm_num, by simp, by simp [h0]⟩
  · replace h0 : succeeds 0 = false := by simpa using h0
    by_cases h1 : succeeds 1 = true
    · have : connectDial succeeds = (2, [2], false) := by
        unfold connectDial connectWhile
        simp [max_connect_attempts, h0, h1, connectWhile]
      rw [this]
      refine ⟨rfl, by norm_num, by simp, by simp [h0, h1]⟩
    · replace h1 : succeeds 1 = false := by simpa using h1
      by_cases h2 : succeeds 2 = true
      · have : connectDial succeeds = (3, [2, 4], false) := by
          unfold connectDial connectWhile
          simp [max_connect_attempts, h0, h1, h2, connectWhile]
        rw [this]
        refine ⟨rfl, by norm_num, by simp, by simp [h0, h1, h2]⟩
      · replace h2 : succeeds 2 = false := by simpa using h2
        have : connectDial succeeds = (3, [2, 4], true) := by
          unfold connectDial connectWhile
          simp [max_connect_attempts, h0, h1, h2, connectWhile]
        rw [this]
        refine ⟨rfl, by norm_num, by simp, by simp [h0, h1, h2]⟩

/-- Witness for `connect_retry_amended` at the all-failing oracle. -/
theorem connect_retry_amended_witness :
    ws_open_timeout = 20 ∧
    (connectDial (fun _ => false)).1 ≤ 3 ∧
    ((connectDial (fun _ => false)).2.1 = []
      ∨ (connectDial (fun _ => false)).2.1 = [2]
      ∨ (connectDial (fun _ => false)).2.1 = [2, 4]) ∧
    ((connectDial (fun _ => false)).2.2 = true ↔
      ((fun _ => false : Nat → Bool) 0 = false
        ∧ (fun _ => false : Nat → Bool) 1 = false
        ∧ (fun _ => false : Nat → Bool) 2 = false)) :=
  connect_retry_amended (fun _ => false)


/-! ## Log secret redaction (`SecretRedactFilter`, logger.py lines 17-34)

The filter substitutes, over the rendered log message, the regular
expression
`(API_APP_KEY|API_ACCESS_KEY|API_RESOURCE_ID|X-Api-App-Key|X-Api-Access-Key|X-Api-Resource-Id)\s*[:=]\s*([^\s,;]+)`
with `IGNORECASE`, replacing each match by `group(1) + "=<REDACTED>"`.
The embedding implements this specific pattern directly: `re.sub` scans
left to right trying a match at each position and resumes after each
match's end; because no alternative key is a case-insensitive prefix of
another and the character classes `\s`, `[:=]`, `[^\s,;]` are pairwise
disjoint where adjacent, the greedy no-backtracking matcher below is
exactly the regex's behaviour on this pattern (ASCII whitespace; the
claims do not exercise Unicode whitespace). -/

end S2S
